import Mathlib

/-!
Verification development for the pr-changelog-gen release-changelog pipeline.

The pipeline components (version validation, git preflight, release-boundary
resolution, pull-request filtering, grouping, markdown rendering, output
routing) are embedded as executable Lean definitions.  The `MainRunner` and
`Logger` modules are translated directly from their TypeScript sources
(`src/modules/main-runner.ts`, `src/modules/logger.ts`).  The service layer
(cli, git, pull-request-resolver, changelog-generator) is not part of the
source tree here, so those definitions are modelled from the specification,
with every observable behaviour pinned against the literal expectations of
the repository's integration and unit tests.
-/

set_option maxRecDepth 20000

/-- The newline character, used throughout the line-oriented definitions. -/
def newlineChar : Char := Char.ofNat 10

/-- The ASCII apostrophe character (U+0027). -/
def asciiApostrophe : Char := Char.ofNat 39

/-- Splits a character list on newline characters; mirrors how the renderer
splits a pull-request body into lines (JS `body.split("\n")`). -/
def splitNl : List Char → List (List Char)
  | [] => [[]]
  | c :: rest =>
    let rs := splitNl rest
    if c = newlineChar then [] :: rs
    else
      match rs with
      | [] => [[c]]
      | h :: t => (c :: h) :: t

/-- Joins a list of lines with newline separators (JS `lines.join("\n")`). -/
def joinLines : List String → String
  | [] => ""
  | [x] => x
  | x :: y :: rest => x ++ "\n" ++ joinLines (y :: rest)

/-- Boolean prefix test on character lists. -/
def isPre : List Char → List Char → Bool
  | [], _ => true
  | _ :: _, [] => false
  | a :: as, b :: bs => a == b && isPre as bs

/-- Boolean prefix test on strings (JS `String.prototype.startsWith`). -/
def strStarts (pre s : String) : Bool := isPre pre.data s.data

/-- ASCII lower-casing of one character. -/
def lowerChar (c : Char) : Char :=
  if 65 ≤ c.toNat ∧ c.toNat ≤ 90 then Char.ofNat (c.toNat + 32) else c

/-- ASCII upper-casing of one character. -/
def upperChar (c : Char) : Char :=
  if 97 ≤ c.toNat ∧ c.toNat ≤ 122 then Char.ofNat (c.toNat - 32) else c

/-- Case-insensitive string equality, used for label comparisons. -/
def eqCI (a b : String) : Bool := a.data.map lowerChar == b.data.map lowerChar

/-- Capitalizes the first character of a string; this is how a configured
label name is turned into its rendered group heading. -/
def capitalize (s : String) : String :=
  match s.data with
  | [] => s
  | c :: rest => String.mk (upperChar c :: rest)

/-- Flat map over lists, used to assemble rendered line sequences. -/
def concatMap (f : α → List β) : List α → List β
  | [] => []
  | x :: xs => f x ++ concatMap f xs

/-- A calendar timestamp (timezone offsets are not modelled; every fixture
comparison in the repository's tests is decided by margins far larger than
any offset involved). -/
structure DateTime where
  year : Nat
  month : Nat
  day : Nat
  hour : Nat
  minute : Nat
  second : Nat
deriving DecidableEq

/-- Injective numeric key of a timestamp; chronological order of timestamps
coincides with numeric order of keys. -/
def DateTime.key (d : DateTime) : Nat :=
  ((((d.year * 13 + d.month) * 32 + d.day) * 24 + d.hour) * 60 + d.minute) * 60 + d.second

/-- One merged pull request, as constructed from an API page item. -/
structure PullRequest where
  id : Nat
  title : String
  state : String
  body : Option String
  labels : List String
  mergedAt : Option DateTime
deriving DecidableEq

/-- Owner/name pair of the target repository. -/
structure Repo where
  owner : String
  name : String
deriving DecidableEq

/-- Modelled from the spec: the resolved, validated configuration consumed by
the pipeline (§6).  Exclusion and title patterns are embedded as boolean
predicates on strings, standing for the compiled regular expressions; the
command-line exclusion pattern is kept separate from the config-file pattern
list because the argument layer merges them (arguments override config
settings, as exercised by the repository's MainAction tests). -/
structure ResolvedConfig where
  groupByLabels : Bool
  groupByMatchers : Bool
  includePrBody : Bool
  validLabels : Option (List String)
  prTitleMatcher : Option (List (String → Bool))
  onlySince : Option DateTime
  excludePrs : List Nat
  excludePatterns : List (String → Bool)
  excludePatternArg : Option (String → Bool)
  sloppy : Bool
  noOutput : Bool
  outputToStdout : Bool
  outputFile : String

/-- The default configuration: matcher-based grouping on, label grouping
off, pull-request bodies included, output prepended to CHANGELOG.md. -/
def defaultConfig : ResolvedConfig :=
  { groupByLabels := false
  , groupByMatchers := true
  , includePrBody := true
  , validLabels := none
  , prTitleMatcher := none
  , onlySince := none
  , excludePrs := []
  , excludePatterns := []
  , excludePatternArg := none
  , sloppy := false
  , noOutput := false
  , outputToStdout := false
  , outputFile := "CHANGELOG.md" }

/-- Errors raised by the pipeline (§7 taxonomy, restricted to the variants
the verified components can produce). -/
inductive PipelineError where
  | missingVersion
  | invalidVersion
  | preflightFailed (reason : String)
deriving DecidableEq

/-- True when every character of the list is an ASCII digit. -/
def allDigits (l : List Char) : Bool := l.all (fun c => c.isDigit)

/-- The ASCII dot character. -/
def dotChar : Char := Char.ofNat 46

/-- Modelled from the spec: the strict three-component `MAJOR.MINOR.PATCH`
pattern of §4.1 — the string must split on dots into exactly three
non-empty all-digit components. -/
def splitDots : List Char → List (List Char)
  | [] => [[]]
  | c :: rest =>
    let rs := splitDots rest
    if c = dotChar then [] :: rs
    else
      match rs with
      | [] => [[c]]
      | h :: t => (c :: h) :: t

/-- Boolean test that a version string matches the strict semantic-version
pattern. -/
def matchesSemver (s : String) : Bool :=
  match splitDots s.data with
  | [a, b, c] =>
    decide (a ≠ []) && allDigits a && decide (b ≠ []) && allDigits b &&
    decide (c ≠ []) && allDigits c
  | _ => false

/-- Specification-level description of a string of shape `\d+\.\d+\.\d+`:
three non-empty digit runs separated by literal dots. -/
def SemverShape (s : String) : Prop :=
  ∃ a b c : List Char,
    a ≠ [] ∧ b ≠ [] ∧ c ≠ [] ∧
    allDigits a = true ∧ allDigits b = true ∧ allDigits c = true ∧
    s.data = a ++ (dotChar :: (b ++ (dotChar :: c)))

/-- Modelled from the spec: version validation (§4.1): absent or empty input
fails with `MissingVersion`, a non-matching value fails with
`InvalidVersion`, and a matching value is returned unchanged. -/
def validateVersion : Option String → Except PipelineError String
  | none => .error .missingVersion
  | some s =>
    if s = "" then .error .missingVersion
    else if matchesSemver s then .ok s
    else .error .invalidVersion

/-- Observable local git state consumed by the preflight check, in the raw
shapes of the §6 collaborator interface: the porcelain status text, the
current branch name, the configured remote URLs, the left/right rev-list
divergence lines, and the tag list. -/
structure GitState where
  status : String
  branch : String
  remotes : List String
  revListLines : List String
  tags : List String

/-- Commits only on the local branch: lines of the left/right listing marked
with a leading `<`. -/
def aheadCount (g : GitState) : Nat :=
  (g.revListLines.filter (fun l => strStarts "<" l)).length

/-- Commits only on the remote branch: lines marked with a leading `>`. -/
def behindCount (g : GitState) : Nat :=
  (g.revListLines.filter (fun l => strStarts ">" l)).length

/-- The remote URL spellings accepted as pointing at the target repository. -/
def expectedRemotes (repo : Repo) : List String :=
  let path := repo.owner ++ "/" ++ repo.name ++ ".git"
  [ "git@github.com:" ++ path
  , "https://github.com/" ++ path
  , "git://github.com/" ++ path ]

/-- True when some configured remote URL corresponds to the repository. -/
def hasValidRemote (g : GitState) (repo : Repo) : Bool :=
  g.remotes.any (fun r => (expectedRemotes repo).any (fun e => e == r))

/-- The failure reason of the missing-remote preflight check, exactly as the
integration test expects it: with the `github.com` host in the URL and a
typographic apostrophe (U+2019) in "doesn’t". -/
def missingRemoteReason (repo : Repo) : String :=
  "This local git repository doesn’t have a remote pointing to git://github.com/" ++
    repo.owner ++ "/" ++ repo.name ++ ".git"

/-- The failure reason of the divergence preflight check. -/
def divergenceReason (g : GitState) : String :=
  "Local git " ++ g.branch ++ " branch is " ++ toString (aheadCount g) ++
    " commits ahead and " ++ toString (behindCount g) ++
    " commits behind of origin/" ++ g.branch

/-- Modelled from the spec: the git preflight check (§4.2).  When the sloppy
flag is set every check is skipped; otherwise the checks run in the fixed
order clean-tree, branch, divergence, remote, and the first failure
short-circuits.  Returns `none` on success and `some reason` on failure. -/
def preflightCheck (sloppy : Bool) (g : GitState) (repo : Repo) : Option String :=
  if sloppy then none
  else if g.status ≠ "" then some "Local copy is not clean"
  else if g.branch ≠ "master" then some "Not on master branch"
  else if aheadCount g ≠ 0 ∨ behindCount g ≠ 0 then some (divergenceReason g)
  else if ¬ hasValidRemote g repo then some (missingRemoteReason repo)
  else none

/-- Modelled from the spec: the tag-derived release boundary (§4.3): the most
recent tag that is not the tag of the version currently being released,
resolved to its creation timestamp through the supplied tag-date table. -/
def tagCutoff (version : String) (tags : List String) (tagDates : List (String × DateTime)) : Option DateTime :=
  match (tags.filter (fun t => t ≠ version)).getLast? with
  | none => none
  | some t => (tagDates.find? (fun e => e.fst == t)).map Prod.snd

/-- Modelled from the spec: the cutoff used for eligibility — the explicit
"only since" override when supplied, otherwise the tag-derived boundary. -/
def resolveCutoff (cfg : ResolvedConfig) (version : String) (g : GitState) (tagDates : List (String × DateTime)) : Option DateTime :=
  match cfg.onlySince with
  | some d => some d
  | none => tagCutoff version g.tags tagDates

/-- The default title allow-list: conventional-commit feature and fix
titles, the only shapes the fixture set exercises. -/
def defaultTitleAllowed (t : String) : Bool :=
  strStarts "feat:" t || strStarts "fix:" t

/-- Whether a title passes the configured (or default) title-matcher
allow-list of §4.4. -/
def titleAllowed (cfg : ResolvedConfig) (t : String) : Bool :=
  match cfg.prTitleMatcher with
  | some pats => pats.any (fun p => p t)
  | none => defaultTitleAllowed t

/-- Whether one of the pull request's labels appears (case-insensitively) in
the explicitly configured valid-label list. -/
def hasValidLabel (cfg : ResolvedConfig) (labels : List String) : Bool :=
  match cfg.validLabels with
  | some ls => labels.any (fun l => ls.any (fun v => eqCI v l))
  | none => false

/-- The effective body-exclusion patterns: the single command-line pattern
replaces the config-file list when it is set (arguments override config
settings), otherwise the config-file list applies. -/
def effectivePatterns (cfg : ResolvedConfig) : List (String → Bool) :=
  match cfg.excludePatternArg with
  | some p => [p]
  | none => cfg.excludePatterns

/-- Whether an exclusion pattern matches the (optional) body text; an absent
or empty body never matches. -/
def bodyMatches (pat : String → Bool) : Option String → Bool
  | none => false
  | some b => if b = "" then false else pat b

/-- Whether an effective exclusion pattern disqualifies the pull request.
The integration tests pin pattern matching against the title (pull request
#2 is excluded although only its title matches), so a pattern excludes a
pull request when it matches the title or a non-empty body. -/
def patternExcluded (cfg : ResolvedConfig) (p : PullRequest) : Bool :=
  (effectivePatterns cfg).any (fun pat => pat p.title || bodyMatches pat p.body)

/-- The date-independent retention conditions of §4.4: closed state, not in
the exclusion id list, body not pattern-excluded, and a title matching the
allow-list or a label in the configured valid-label list. -/
def otherFiltersPass (cfg : ResolvedConfig) (p : PullRequest) : Bool :=
  p.state == "closed" &&
  decide (p.id ∉ cfg.excludePrs) &&
  ! patternExcluded cfg p &&
  (titleAllowed cfg p.title || hasValidLabel cfg p.labels)

/-- The eligibility boundary policy of §4.3: the merge timestamp must be
strictly after the cutoff; with no cutoff every merged pull request is
eligible, and an unmerged pull request never is. -/
def mergedAfterCutoff (cutoff : Option DateTime) (p : PullRequest) : Bool :=
  match p.mergedAt with
  | none => false
  | some m =>
    match cutoff with
    | none => true
    | some c => c.key < m.key

/-- Modelled from the spec: full retention test of the pull-request resolver
(§4.4). -/
def retainPr (cfg : ResolvedConfig) (cutoff : Option DateTime) (p : PullRequest) : Bool :=
  mergedAfterCutoff cutoff p && otherFiltersPass cfg p

/-- Sort key of a pull request: the numeric key of its merge timestamp. -/
def prKey (p : PullRequest) : Nat :=
  match p.mergedAt with
  | none => 0
  | some m => m.key

/-- Inserts a pull request into a list sorted by descending merge time,
after any entry with an equal or later merge time (stable). -/
def insertByKeyDesc (p : PullRequest) : List PullRequest → List PullRequest
  | [] => [p]
  | q :: rest => if prKey q < prKey p then p :: q :: rest else q :: insertByKeyDesc p rest

/-- Stable sort by descending merge time, as observed in the flat-list
integration test (entries appear most recently merged first). -/
def sortByMergedDesc (l : List PullRequest) : List PullRequest :=
  l.foldl (fun acc p => insertByKeyDesc p acc) []

/-- Modelled from the spec: the resolver output — the retained pull requests
ordered by descending merge time. -/
def resolvePulls (cfg : ResolvedConfig) (cutoff : Option DateTime) (pulls : List PullRequest) : List PullRequest :=
  sortByMergedDesc (pulls.filter (retainPr cfg cutoff))

/-- A named changelog section together with its membership predicate. -/
abbrev SectionRule := String × (PullRequest → Bool)

/-- The grouping rule one configured label defines: its capitalized display
heading, and membership of the label (case-insensitively) in the pull
request's own label set. -/
def labelRule (l : String) : SectionRule :=
  (capitalize l, fun p => p.labels.any (fun x => eqCI l x))

/-- The label-based grouping rules of §4.5: each configured label, in
configured order, with its capitalized display heading; with label grouping
enabled but no explicit list, the built-in default label names apply. -/
def labelRules (cfg : ResolvedConfig) : List SectionRule :=
  if cfg.groupByLabels then
    match cfg.validLabels with
    | some ls => ls.map labelRule
    | none => ["bug", "enhancement"].map labelRule
  else []

/-- The fixed matcher-based grouping rules of §4.5: conventional-commit
title prefixes in declaration order. -/
def matcherRules (cfg : ResolvedConfig) : List SectionRule :=
  if cfg.groupByMatchers then
    [ ("Features", fun p => strStarts "feat:" p.title)
    , ("Bug Fixes", fun p => strStarts "fix:" p.title) ]
  else []

/-- Extracts a section per rule, in rule order: each rule captures the
remaining pull requests it matches and passes the rest on, so a pull request
joins the first rule that matches it. -/
def extractSections : List SectionRule → List PullRequest → List (String × List PullRequest) × List PullRequest
  | [], prs => ([], prs)
  | (h, pred) :: rest, prs =>
    let sec := prs.filter (fun p => pred p)
    let remaining := prs.filter (fun p => ! pred p)
    let (secs, fin) := extractSections rest remaining
    ((h, sec) :: secs, fin)

/-- Whether any grouping mechanism is enabled. -/
def groupingActive (cfg : ResolvedConfig) : Bool :=
  cfg.groupByLabels || cfg.groupByMatchers

/-- Modelled from the spec: the grouping engine (§4.5).  Label-derived
sections come first (label matches always win), matcher-derived sections are
computed only from the pull requests left unassigned, empty sections are
dropped, and any still-unassigned pull requests form a trailing "Other"
section. -/
def groupSections (cfg : ResolvedConfig) (prs : List PullRequest) : List (String × List PullRequest) :=
  let lab := extractSections (labelRules cfg) prs
  let mat := extractSections (matcherRules cfg) lab.snd
  (lab.fst ++ mat.fst).filter (fun s => ! s.snd.isEmpty) ++
    (if mat.snd.isEmpty then [] else [("Other", mat.snd)])

/-- The section of the grouped output a pull request ends up in: the heading
of the first section list containing it. -/
def findSection (secs : List (String × List PullRequest)) (p : PullRequest) : Option String :=
  (secs.find? (fun s => s.snd.any (fun q => decide (q = p)))).map Prod.fst

/-- English month names for the default long date format. -/
def monthName (m : Nat) : String :=
  match m with
  | 1 => "January" | 2 => "February" | 3 => "March" | 4 => "April"
  | 5 => "May" | 6 => "June" | 7 => "July" | 8 => "August"
  | 9 => "September" | 10 => "October" | 11 => "November" | 12 => "December"
  | _ => ""

/-- Modelled from the spec: the default date pattern "MMMM d, yyyy" applied
to a date — the long human form such as "April 1, 2023". -/
def formatLongDate (d : DateTime) : String :=
  monthName d.month ++ " " ++ toString d.day ++ ", " ++ toString d.year

/-- The body block of one entry: every body line prefixed with two spaces,
followed by one blank line. -/
def bodyBlock (b : String) : List String :=
  (splitNl b.data).map (fun l => "  " ++ String.mk l) ++ [""]

/-- Modelled from the spec: the lines of one rendered pull-request entry
(§4.6): the `- ####` heading line with the web link, a blank line, and the
two-space-indented body block unless body inclusion is disabled or the body
is empty or absent. -/
def renderEntry (cfg : ResolvedConfig) (repo : Repo) (p : PullRequest) : List String :=
  [ "- #### " ++ p.title ++ " ([#" ++ toString p.id ++ "](https://github.com/" ++
      repo.owner ++ "/" ++ repo.name ++ "/pull/" ++ toString p.id ++ "))"
  , "" ] ++
  (match p.body with
   | none => []
   | some b => if cfg.includePrBody && b ≠ "" then bodyBlock b else [])

/-- The lines of one rendered section: the `###` heading, a blank line, and
the entries of the section. -/
def renderSection (cfg : ResolvedConfig) (repo : Repo) (s : String × List PullRequest) : List String :=
  ["### " ++ s.fst, ""] ++ concatMap (renderEntry cfg repo) s.snd

/-- Modelled from the spec: the changelog document (§4.6): the version/date
heading, then either the grouped sections or — when no grouping mechanism is
enabled — the flat entry list. -/
def renderChangelog (cfg : ResolvedConfig) (repo : Repo) (version : String) (today : DateTime) (prs : List PullRequest) : String :=
  let heading := "## " ++ version ++ " (" ++ formatLongDate today ++ ")"
  let entryLines :=
    if groupingActive cfg then concatMap (renderSection cfg repo) (groupSections cfg prs)
    else concatMap (renderEntry cfg repo) prs
  joinLines ([heading, ""] ++ entryLines)

/-- Modelled from the spec: the final normalization (§4.6): when the
document ends in newline characters, the trailing run of newlines is
collapsed to exactly one; all interior lines are untouched. -/
def normalizeTrailing (s : String) : String :=
  match s.data.reverse with
  | [] => s
  | c :: _ =>
    if c = newlineChar then
      String.mk ((s.data.reverse.dropWhile (fun x => x = newlineChar)).reverse ++ [newlineChar])
    else s

/-- Everything one pipeline run consumes: the requested version, the
resolved configuration, the local git state, the target repository, the
tag-date table, the fetched pull-request page data, and today's date. -/
structure PipelineInput where
  version : Option String
  cfg : ResolvedConfig
  git : GitState
  repo : Repo
  tagDates : List (String × DateTime)
  pulls : List PullRequest
  today : DateTime

/-- Everything a successful pipeline run produces: the normalized changelog
string, the file writes (path, content), the strings printed to standard
output, and the warnings emitted. -/
structure PipelineOutput where
  changelog : String
  fileWrites : List (String × String)
  stdoutWrites : List String
  warnings : List String
deriving DecidableEq

/-- Modelled from the spec: the control flow of §2 / the cli service:
version validation gates entry, the preflight check gates entry unless
sloppy, the boundary is resolved, pull requests are resolved and grouped,
the document is rendered and normalized, and the result is routed to a file,
to standard output, or nowhere according to `noOutput`/`outputToStdout`. -/
def runPipeline (i : PipelineInput) : Except PipelineError PipelineOutput :=
  match validateVersion i.version with
  | .error e => .error e
  | .ok version =>
    match preflightCheck i.cfg.sloppy i.git i.repo with
    | some reason => .error (.preflightFailed reason)
    | none =>
      let cutoff := resolveCutoff i.cfg version i.git i.tagDates
      let retained := resolvePulls i.cfg cutoff i.pulls
      let doc := normalizeTrailing (renderChangelog i.cfg i.repo version i.today retained)
      let warnings := if retained.isEmpty then ["No valid pull requests found."] else []
      if i.cfg.noOutput then
        .ok { changelog := doc, fileWrites := [], stdoutWrites := [], warnings := warnings }
      else if i.cfg.outputToStdout then
        .ok { changelog := doc, fileWrites := [], stdoutWrites := [doc], warnings := warnings }
      else
        .ok { changelog := doc, fileWrites := [(i.cfg.outputFile, doc)], stdoutWrites := [], warnings := warnings }

/-- The file writes a pipeline run performs: none when it fails. -/
def pipelineWrites (i : PipelineInput) : List (String × String) :=
  match runPipeline i with
  | .ok o => o.fileWrites
  | .error _ => []

/-- An output stream of the process. -/
inductive OutStream where
  | stdout
  | stderr
deriving DecidableEq

/-- The slice of the resolved configuration the logger reads: the `noOutput`
option, absent by default (`config.get("noOutput", false)`). -/
structure LoggerConfig where
  noOutput : Option Bool
deriving DecidableEq

/-- From `src/modules/logger.ts`: the guarded stdout sink — nothing is
written when the resolved `noOutput` option is `true`. -/
def writeToStdout (cfg : LoggerConfig) (msg : String) : List (OutStream × String) :=
  if cfg.noOutput.getD false = true then [] else [(OutStream.stdout, msg)]

/-- From `src/modules/logger.ts`: the guarded stderr sink. -/
def writeToStderr (cfg : LoggerConfig) (msg : String) : List (OutStream × String) :=
  if cfg.noOutput.getD false = true then [] else [(OutStream.stderr, msg)]

/-- The termx-markup span wrapping applied by `Logger.write`; the rendering
of the markup is external plumbing, abstracted as a plain tagging function. -/
def spanMarkup (msg : String) : String := msg

/-- The markup applied by `Logger.warn`, prefixing a warning tag. -/
def warnMarkup (msg : String) : String := "Warning: " ++ msg

/-- The markup applied by `Logger.error`, prefixing an error tag. -/
def errorMarkup (msg : String) : String := "Error: " ++ msg

/-- From `src/modules/logger.ts`: `Logger.write` routes through the guarded
stdout sink. -/
def loggerWrite (cfg : LoggerConfig) (msg : String) : List (OutStream × String) :=
  writeToStdout cfg (spanMarkup msg)

/-- From `src/modules/logger.ts`: `Logger.warn` routes through the guarded
stdout sink. -/
def loggerWarn (cfg : LoggerConfig) (msg : String) : List (OutStream × String) :=
  writeToStdout cfg (warnMarkup msg)

/-- From `src/modules/logger.ts`: `Logger.error` routes through the guarded
stderr sink. -/
def loggerError (cfg : LoggerConfig) (msg : String) : List (OutStream × String) :=
  writeToStderr cfg (errorMarkup msg)

/-- A value thrown by the wrapped action: either a JS `Error` (message plus
optional stack) or any other value, carried as its string rendering. -/
inductive ThrownValue where
  | jsError (message : String) (stack : Option String)
  | other (rendering : String)
deriving DecidableEq

/-- From `src/modules/main-runner.ts`: the error lines the runner logs — the
message, followed by the stack (or the empty string) when the trace flag was
requested; a non-`Error` value is logged via its string rendering only. -/
def thrownLogs (t : ThrownValue) (trace : Bool) : List String :=
  match t with
  | .jsError m st => [m] ++ (if trace then [st.getD ""] else [])
  | .other s => [s]

/-- How one `MainRunner.run` invocation ends: a returned value, a process
exit with the given status code, or a re-raised thrown value. -/
inductive RunOutcome (R : Type) where
  | ok (r : R)
  | exited (code : Nat)
  | raised (t : ThrownValue)
deriving DecidableEq

/-- From `src/modules/main-runner.ts`: the top-level runner.  A successful
action's result is returned unchanged with nothing logged; on a thrown value
the error lines are logged, then the process exits with status 1 when
spawned from the command line and the same value is re-raised otherwise. -/
def mainRunnerRun {R : Type} (action : Except ThrownValue R) (trace isSpawnedFromCli : Bool) : RunOutcome R × List String :=
  match action with
  | .ok r => (.ok r, [])
  | .error t =>
    ((if isSpawnedFromCli then .exited 1 else .raised t), thrownLogs t trace)

/-- Fixture pull request #8 from the integration tests. -/
def pr8 : PullRequest :=
  { id := 8
  , title := "feat: replaced all the code with calls to ChatGPT (lol)"
  , state := "closed"
  , body := some "all api call are now replaced with calls to the ChatGPT API, hope the AI can do the job better than us"
  , labels := ["features"]
  , mergedAt := some ⟨2023, 3, 1, 12, 30, 0⟩ }

/-- Fixture pull request #2 from the integration tests. -/
def pr2 : PullRequest :=
  { id := 2
  , title := "feat: added a new feature"
  , state := "closed"
  , body := some "- **new feature added** yada yada"
  , labels := ["enhancements"]
  , mergedAt := some ⟨2023, 2, 1, 12, 30, 0⟩ }

/-- Fixture pull request #3 from the integration tests. -/
def pr3 : PullRequest :=
  { id := 3
  , title := "feat: initial commit"
  , state := "closed"
  , body := some "__INITIALIZED THE PROJECT REPO__"
  , labels := ["features"]
  , mergedAt := some ⟨2022, 2, 1, 12, 30, 0⟩ }

/-- Fixture pull request #7 from the integration tests. -/
def pr7 : PullRequest :=
  { id := 7
  , title := "test: added unit tests"
  , state := "closed"
  , body := some "-------"
  , labels := []
  , mergedAt := some ⟨2023, 2, 1, 12, 30, 0⟩ }

/-- Fixture pull request #1 from the integration tests; its body contains a
fenced code block and ends with a newline. -/
def pr1 : PullRequest :=
  { id := 1
  , title := "fix: some bug"
  , state := "closed"
  , body := some "fixed a bug which ocurred when doing something like:\n\n```ts\n  foo(\"bar\");\n```\n"
  , labels := ["fixes", "bugfixes", "bugs"]
  , mergedAt := some ⟨2023, 2, 10, 12, 30, 0⟩ }

/-- Fixture pull request #6 from the integration tests. -/
def pr6 : PullRequest :=
  { id := 6
  , title := "chore: updated readme"
  , state := "closed"
  , body := some "updated readme with new instructions"
  , labels := ["chore"]
  , mergedAt := some ⟨2023, 2, 1, 12, 30, 0⟩ }

/-- Fixture pull request #4 from the integration tests. -/
def pr4 : PullRequest :=
  { id := 4
  , title := "fix: another bug"
  , state := "closed"
  , body := some "a list of bugs fixed:\n\n- bug 1\n- bug 2\n- bug 3\n"
  , labels := ["bugs"]
  , mergedAt := some ⟨2023, 1, 1, 12, 30, 0⟩ }

/-- Fixture pull request #5 from the integration tests. -/
def pr5 : PullRequest :=
  { id := 5
  , title := "docs: updated readme"
  , state := "closed"
  , body := some "-------"
  , labels := ["documentation"]
  , mergedAt := some ⟨2023, 2, 1, 12, 35, 0⟩ }

/-- The eight fixture pull requests in upstream arrival order. -/
def fixturePulls : List PullRequest := [pr8, pr2, pr3, pr7, pr1, pr6, pr4, pr5]

/-- The fixture repository, parsed from the mocked package.json URL. -/
def fixtureRepo : Repo := { owner := "repoOwner", name := "repoName" }

/-- The mocked local git state of the integration tests: clean tree, master
branch, matching remote, no divergence, five release tags. -/
def fixtureGit : GitState :=
  { status := ""
  , branch := "master"
  , remotes := ["git@github.com:repoOwner/repoName.git"]
  , revListLines := []
  , tags := ["1.0.0", "1.0.1", "1.1.0", "2.0.0", "2.0.1"] }

/-- The tag creation timestamps parsed from the mocked `git log` output
(offsets dropped, see `DateTime`): tag 2.0.1 was created 2023-01-01 12:00:00
and tag 2.0.0 at 09:00:00. -/
def fixtureTagDates : List (String × DateTime) :=
  [("2.0.1", ⟨2023, 1, 1, 12, 0, 0⟩), ("2.0.0", ⟨2023, 1, 1, 9, 0, 0⟩)]

/-- The mocked current date of the integration tests: April 1, 2023. -/
def fixtureToday : DateTime := ⟨2023, 4, 1, 12, 0, 0⟩

/-- The pipeline input of the default integration scenario: version 2.0.2,
default configuration, the fixture git state and pull requests. -/
def c1Input : PipelineInput :=
  { version := some "2.0.2"
  , cfg := defaultConfig
  , git := fixtureGit
  , repo := fixtureRepo
  , tagDates := fixtureTagDates
  , pulls := fixturePulls
  , today := fixtureToday }

/-- The changelog the default scenario must write, byte for byte the literal
expected by the integration test "should correctly generate and write the
CHANGELOG". -/
def c1Expected : String :=
  joinLines
    [ "## 2.0.2 (April 1, 2023)"
    , ""
    , "### Features"
    , ""
    , "- #### feat: replaced all the code with calls to ChatGPT (lol) ([#8](https://github.com/repoOwner/repoName/pull/8))"
    , ""
    , "  all api call are now replaced with calls to the ChatGPT API, hope the AI can do the job better than us"
    , ""
    , "- #### feat: added a new feature ([#2](https://github.com/repoOwner/repoName/pull/2))"
    , ""
    , "  - **new feature added** yada yada"
    , ""
    , "### Bug Fixes"
    , ""
    , "- #### fix: some bug ([#1](https://github.com/repoOwner/repoName/pull/1))"
    , ""
    , "  fixed a bug which ocurred when doing something like:"
    , "  "
    , "  ```ts"
    , "    foo(\"bar\");"
    , "  ```"
    , "  "
    , ""
    , "- #### fix: another bug ([#4](https://github.com/repoOwner/repoName/pull/4))"
    , ""
    , "  a list of bugs fixed:"
    , "  "
    , "  - bug 1"
    , "  - bug 2"
    , "  - bug 3"
    , "  "
    , "" ]

deriving instance DecidableEq for Except

/-- Substring test on character lists. -/
def hasSub (n : List Char) : List Char → Bool
  | [] => isPre n []
  | c :: rest => isPre n (c :: rest) || hasSub n rest

/-- Substring test on strings, the semantics of an unanchored literal
regular expression. -/
def containsSub (needle s : String) : Bool := hasSub needle.data s.data

/-- The JS regular expression `.+`: matches any string holding at least one
non-newline character. -/
def patAnyChar (s : String) : Bool := s.data.any (fun c => ! (c = newlineChar))

/-- The command-line pattern `(added a new feature)|(ChatGPT)` of the
exclude-pattern integration test. -/
def patAddedOrChatGPT (s : String) : Bool :=
  containsSub "added a new feature" s || containsSub "ChatGPT" s

/-- The pipeline input of the "only since: with a date after the last tag"
integration scenario: default configuration plus `onlySince = 2023-02-05`. -/
def c2Input : PipelineInput :=
  { c1Input with cfg := { defaultConfig with onlySince := some ⟨2023, 2, 5, 0, 0, 0⟩ } }

/-- The changelog expected by the only-since scenario: only #8 under
Features and #1 under Bug Fixes. -/
def c2Expected : String :=
  joinLines
    [ "## 2.0.2 (April 1, 2023)"
    , ""
    , "### Features"
    , ""
    , "- #### feat: replaced all the code with calls to ChatGPT (lol) ([#8](https://github.com/repoOwner/repoName/pull/8))"
    , ""
    , "  all api call are now replaced with calls to the ChatGPT API, hope the AI can do the job better than us"
    , ""
    , "### Bug Fixes"
    , ""
    , "- #### fix: some bug ([#1](https://github.com/repoOwner/repoName/pull/1))"
    , ""
    , "  fixed a bug which ocurred when doing something like:"
    , "  "
    , "  ```ts"
    , "    foo(\"bar\");"
    , "  ```"
    , "  "
    , "" ]

/-- The pipeline input of the "groups prs that have matching labels while
also grouping by matchers" integration scenario: label grouping on with
valid label `bugs`, matcher grouping on. -/
def c3Input : PipelineInput :=
  { c1Input with cfg := { defaultConfig with groupByLabels := true, validLabels := some ["bugs"] } }

/-- The changelog expected by the label-precedence scenario: #1 and #4 under
the label-derived "Bugs" heading (not under the matcher-derived "Bug
Fixes"), #8 and #2 under the matcher-derived "Features". -/
def c3Expected : String :=
  joinLines
    [ "## 2.0.2 (April 1, 2023)"
    , ""
    , "### Bugs"
    , ""
    , "- #### fix: some bug ([#1](https://github.com/repoOwner/repoName/pull/1))"
    , ""
    , "  fixed a bug which ocurred when doing something like:"
    , "  "
    , "  ```ts"
    , "    foo(\"bar\");"
    , "  ```"
    , "  "
    , ""
    , "- #### fix: another bug ([#4](https://github.com/repoOwner/repoName/pull/4))"
    , ""
    , "  a list of bugs fixed:"
    , "  "
    , "  - bug 1"
    , "  - bug 2"
    , "  - bug 3"
    , "  "
    , ""
    , "### Features"
    , ""
    , "- #### feat: replaced all the code with calls to ChatGPT (lol) ([#8](https://github.com/repoOwner/repoName/pull/8))"
    , ""
    , "  all api call are now replaced with calls to the ChatGPT API, hope the AI can do the job better than us"
    , ""
    , "- #### feat: added a new feature ([#2](https://github.com/repoOwner/repoName/pull/2))"
    , ""
    , "  - **new feature added** yada yada"
    , "" ]

/-- The pipeline input of the "exclude patterns: when specified via
argument" integration scenario: config-file pattern `.+` and command-line
pattern `(added a new feature)|(ChatGPT)`. -/
def c4Input : PipelineInput :=
  { c1Input with cfg := { defaultConfig with
      excludePatterns := [patAnyChar], excludePatternArg := some patAddedOrChatGPT } }

/-- The changelog expected by the argument-pattern scenario: pull requests
#1 and #4 are retained (their bodies match the config-file pattern `.+`,
which the command-line pattern replaces), #8 and #2 are excluded. -/
def c4Expected : String :=
  joinLines
    [ "## 2.0.2 (April 1, 2023)"
    , ""
    , "### Bug Fixes"
    , ""
    , "- #### fix: some bug ([#1](https://github.com/repoOwner/repoName/pull/1))"
    , ""
    , "  fixed a bug which ocurred when doing something like:"
    , "  "
    , "  ```ts"
    , "    foo(\"bar\");"
    , "  ```"
    , "  "
    , ""
    , "- #### fix: another bug ([#4](https://github.com/repoOwner/repoName/pull/4))"
    , ""
    , "  a list of bugs fixed:"
    , "  "
    , "  - bug 1"
    , "  - bug 2"
    , "  - bug 3"
    , "  "
    , "" ]

/-- The pipeline input of the "sloppy when enabled: and no origin"
integration scenario: the fixture git state with no configured remote. -/
def c5Input : PipelineInput :=
  { c1Input with git := { fixtureGit with remotes := [] } }

/-- The reason string the claim predicts for the missing-remote failure: an
ASCII apostrophe in "doesn't" and no host segment in the URL. -/
def c5ClaimedReason : String :=
  "This local git repository doesn" ++ String.mk [asciiApostrophe] ++
    "t have a remote pointing to git://repoOwner/repoName.git"

/-- The pipeline input of the "sloppy ... and on different branch"
integration scenario with sloppy disabled: current branch `feat/some`. -/
def c6StrictInput : PipelineInput :=
  { c1Input with git := { fixtureGit with branch := "feat/some" } }

/-- The same git state with the sloppy flag enabled. -/
def c6SloppyInput : PipelineInput :=
  { c6StrictInput with cfg := { defaultConfig with sloppy := true } }

/-- Rejoins dot-separated components; the inverse of `splitDots`. -/
def joinDots : List (List Char) → List Char
  | [] => []
  | [x] => x
  | x :: y :: rest => x ++ dotChar :: joinDots (y :: rest)

/-- The cutoff the default scenario derives from the fixture tags: the
creation time of tag 2.0.1. -/
def fixtureCutoff : DateTime := ⟨2023, 1, 1, 12, 0, 0⟩

theorem mem_insertByKeyDesc {q p : PullRequest} {l : List PullRequest} :
    q ∈ insertByKeyDesc p l ↔ q = p ∨ q ∈ l := by
  induction l with
  | nil => simp [insertByKeyDesc]
  | cons r rest ih =>
    by_cases h : prKey r < prKey p
    · simp [insertByKeyDesc, h]
    · simp only [insertByKeyDesc, if_neg h, List.mem_cons, ih]
      tauto

theorem mem_foldl_insert {q : PullRequest} :
    ∀ (l acc : List PullRequest),
      q ∈ l.foldl (fun acc p => insertByKeyDesc p acc) acc ↔ q ∈ acc ∨ q ∈ l := by
  intro l
  induction l with
  | nil => intro acc; simp
  | cons p rest ih =>
    intro acc
    simp only [List.foldl_cons, ih, mem_insertByKeyDesc, List.mem_cons]
    tauto

theorem mem_sortByMergedDesc {q : PullRequest} {l : List PullRequest} :
    q ∈ sortByMergedDesc l ↔ q ∈ l := by
  simp [sortByMergedDesc, mem_foldl_insert]

theorem mem_resolvePulls {q : PullRequest} {cfg : ResolvedConfig} {cutoff : Option DateTime} {pulls : List PullRequest} :
    q ∈ resolvePulls cfg cutoff pulls ↔ q ∈ pulls ∧ retainPr cfg cutoff q = true := by
  simp [resolvePulls, mem_sortByMergedDesc, List.mem_filter]

theorem extractSections_snd_subset :
    ∀ (rules : List SectionRule) (prs : List PullRequest) (q : PullRequest),
      q ∈ (extractSections rules prs).snd → q ∈ prs := by
  intro rules
  induction rules with
  | nil => intro prs q h; simpa [extractSections] using h
  | cons r rest ih =>
    intro prs q h
    simp only [extractSections] at h
    have := ih (prs.filter (fun p => ! r.snd p)) q h
    exact (List.mem_filter.mp this).1

theorem extractSections_sec_subset :
    ∀ (rules : List SectionRule) (prs : List PullRequest) (hs : String × List PullRequest),
      hs ∈ (extractSections rules prs).fst → ∀ q ∈ hs.snd, q ∈ prs := by
  intro rules
  induction rules with
  | nil => intro prs hs h; simp [extractSections] at h
  | cons r rest ih =>
    intro prs hs h q hq
    simp only [extractSections, List.mem_cons] at h
    rcases h with h | h
    · subst h
      exact (List.mem_filter.mp hq).1
    · have := ih (prs.filter (fun p => ! r.snd p)) hs h q hq
      exact (List.mem_filter.mp this).1

theorem extractSections_mem_snd_of_all_false :
    ∀ (rules : List SectionRule) (prs : List PullRequest) (p : PullRequest),
      (∀ r ∈ rules, r.snd p = false) → p ∈ prs → p ∈ (extractSections rules prs).snd := by
  intro rules
  induction rules with
  | nil => intro prs p _ hp; simpa [extractSections] using hp
  | cons r rest ih =>
    intro prs p hall hp
    simp only [extractSections]
    apply ih
    · intro r' hr'
      exact hall r' (List.mem_cons_of_mem _ hr')
    · apply List.mem_filter.mpr
      refine ⟨hp, ?_⟩
      have := hall r (List.mem_cons_self r rest)
      simp [this]

theorem extractSections_not_mem_sec_of_all_false :
    ∀ (rules : List SectionRule) (prs : List PullRequest) (p : PullRequest),
      (∀ r ∈ rules, r.snd p = false) →
      ∀ hs ∈ (extractSections rules prs).fst, p ∉ hs.snd := by
  intro rules
  induction rules with
  | nil => intro prs p _ hs h; simp [extractSections] at h
  | cons r rest ih =>
    intro prs p hall hs h hmem
    simp only [extractSections, List.mem_cons] at h
    rcases h with h | h
    · subst h
      have hr := hall r (List.mem_cons_self r rest)
      have := (List.mem_filter.mp hmem).2
      simp [hr] at this
    · exact ih (prs.filter (fun q => ! r.snd q)) p
        (fun r' hr' => hall r' (List.mem_cons_of_mem _ hr')) hs h hmem

theorem secHit_iff {s : String × List PullRequest} {p : PullRequest} :
    (s.snd.any (fun q => decide (q = p))) = true ↔ p ∈ s.snd := by
  simp [List.any_eq_true]

theorem findSection_cons_of_mem {s : String × List PullRequest} {rest : List (String × List PullRequest)} {p : PullRequest}
    (h : p ∈ s.snd) : findSection (s :: rest) p = some s.fst := by
  simp [findSection, List.find?_cons_of_pos, secHit_iff.mpr h]

theorem findSection_cons_of_not_mem {s : String × List PullRequest} {rest : List (String × List PullRequest)} {p : PullRequest}
    (h : p ∉ s.snd) : findSection (s :: rest) p = findSection rest p := by
  have : (s.snd.any (fun q => decide (q = p))) = false := by
    by_contra hc
    exact h (secHit_iff.mp (by revert hc; cases s.snd.any (fun q => decide (q = p)) <;> simp))
  simp [findSection, List.find?_cons_of_neg, this]

theorem findSection_none_of_all_not_mem {secs : List (String × List PullRequest)} {p : PullRequest}
    (h : ∀ s ∈ secs, p ∉ s.snd) : findSection secs p = none := by
  induction secs with
  | nil => simp [findSection]
  | cons s rest ih =>
    rw [findSection_cons_of_not_mem (h s (List.mem_cons_self s rest))]
    exact ih (fun s' hs' => h s' (List.mem_cons_of_mem _ hs'))

theorem findSection_append_left {secs tecs : List (String × List PullRequest)} {p : PullRequest} {h : String}
    (hf : findSection secs p = some h) : findSection (secs ++ tecs) p = some h := by
  induction secs with
  | nil => simp [findSection] at hf
  | cons s rest ih =>
    by_cases hm : p ∈ s.snd
    · rw [findSection_cons_of_mem hm] at hf
      rw [List.cons_append, findSection_cons_of_mem hm]
      exact hf
    · rw [findSection_cons_of_not_mem hm] at hf
      rw [List.cons_append, findSection_cons_of_not_mem hm]
      exact ih hf

theorem findSection_append_right {secs tecs : List (String × List PullRequest)} {p : PullRequest}
    (hf : ∀ s ∈ secs, p ∉ s.snd) : findSection (secs ++ tecs) p = findSection tecs p := by
  induction secs with
  | nil => simp
  | cons s rest ih =>
    rw [List.cons_append, findSection_cons_of_not_mem (hf s (List.mem_cons_self s rest))]
    exact ih (fun s' hs' => hf s' (List.mem_cons_of_mem _ hs'))

theorem findSection_filter_nonempty {secs : List (String × List PullRequest)} {p : PullRequest} :
    findSection (secs.filter (fun s => ! s.snd.isEmpty)) p = findSection secs p := by
  induction secs with
  | nil => rfl
  | cons s rest ih =>
    by_cases hm : p ∈ s.snd
    · have hne : (! s.snd.isEmpty) = true := by
        cases hs : s.snd with
        | nil => rw [hs] at hm; simp at hm
        | cons a l => simp [hs]
      rw [List.filter_cons, if_pos hne, findSection_cons_of_mem hm, findSection_cons_of_mem hm]
    · rw [List.filter_cons, findSection_cons_of_not_mem hm]
      by_cases hne : (! s.snd.isEmpty) = true
      · rw [if_pos hne, findSection_cons_of_not_mem hm]
        exact ih
      · rw [if_neg hne]
        exact ih

theorem extractSections_first_match :
    ∀ (rules : List SectionRule) (prs : List PullRequest) (p : PullRequest) (hp : SectionRule),
      p ∈ prs → rules.find? (fun r => r.snd p) = some hp →
      findSection (extractSections rules prs).fst p = some hp.fst ∧
        p ∉ (extractSections rules prs).snd := by
  intro rules
  induction rules with
  | nil => intro prs p hp _ hf; simp at hf
  | cons r rest ih =>
    intro prs p hp hmem hf
    by_cases h : r.snd p = true
    · rw [@List.find?_cons_of_pos _ (fun r => r.snd p) r rest h] at hf
      injection hf with hf
      subst hf
      constructor
      · simp only [extractSections]
        exact findSection_cons_of_mem (by exact List.mem_filter.mpr ⟨hmem, h⟩)
      · simp only [extractSections]
        intro hmem'
        have hsub := extractSections_snd_subset rest (prs.filter (fun q => ! r.snd q)) p hmem'
        have := (List.mem_filter.mp hsub).2
        simp [h] at this
    · have hb : (r.snd p) = false := by revert h; cases r.snd p <;> simp
      rw [@List.find?_cons_of_neg _ (fun r => r.snd p) r rest (by simp [hb])] at hf
      have hmem' : p ∈ prs.filter (fun q => ! r.snd q) :=
        List.mem_filter.mpr ⟨hmem, by simp [hb]⟩
      obtain ⟨h1, h2⟩ := ih (prs.filter (fun q => ! r.snd q)) p hp hmem' hf
      constructor
      · simp only [extractSections]
        rw [findSection_cons_of_not_mem]
        · exact h1
        · intro hc
          have := (List.mem_filter.mp hc).2
          rw [hb] at this
          simp at this
      · simpa only [extractSections] using h2

theorem find?_map_labelRule :
    ∀ (ls : List String) (p : PullRequest),
      (ls.map labelRule).find? (fun r => r.snd p) =
        (ls.find? (fun l => p.labels.any (fun x => eqCI l x))).map labelRule := by
  intro ls p
  induction ls with
  | nil => rfl
  | cons l rest ih =>
    by_cases h : (p.labels.any (fun x => eqCI l x)) = true
    · rw [List.map_cons,
        @List.find?_cons_of_pos _ (fun r => r.snd p) (labelRule l) (List.map labelRule rest)
          (by simpa [labelRule] using h),
        @List.find?_cons_of_pos _ (fun l => p.labels.any (fun x => eqCI l x)) l rest h]
      rfl
    · have hb : (p.labels.any (fun x => eqCI l x)) = false := by
        revert h; cases p.labels.any (fun x => eqCI l x) <;> simp
      rw [List.map_cons,
        @List.find?_cons_of_neg _ (fun r => r.snd p) (labelRule l) (List.map labelRule rest)
          (by simp [labelRule, hb]),
        @List.find?_cons_of_neg _ (fun l => p.labels.any (fun x => eqCI l x)) l rest (by simp [hb]), ih]

theorem groupSections_label_first
    (cfg : ResolvedConfig) (prs : List PullRequest) (p : PullRequest) (ls : List String) (l : String)
    (hGBL : cfg.groupByLabels = true) (hVL : cfg.validLabels = some ls) (hmem : p ∈ prs)
    (hfind : ls.find? (fun v => p.labels.any (fun x => eqCI v x)) = some l) :
    findSection (groupSections cfg prs) p = some (capitalize l) ∧
      ∀ hs ∈ (extractSections (matcherRules cfg) (extractSections (labelRules cfg) prs).snd).fst,
        p ∉ hs.snd := by
  have hrules : labelRules cfg = ls.map labelRule := by
    simp [labelRules, hGBL, hVL]
  have hfind' : (labelRules cfg).find? (fun r => r.snd p) = some (labelRule l) := by
    rw [hrules, find?_map_labelRule, hfind]
    rfl
  obtain ⟨h1, h2⟩ := extractSections_first_match (labelRules cfg) prs p (labelRule l) hmem hfind'
  have hmat : ∀ hs ∈ (extractSections (matcherRules cfg) (extractSections (labelRules cfg) prs).snd).fst,
      p ∉ hs.snd := by
    intro hs hhs hc
    exact h2 (extractSections_sec_subset (matcherRules cfg) _ hs hhs p hc)
  refine ⟨?_, hmat⟩
  unfold groupSections
  rw [findSection_append_left]
  rw [findSection_filter_nonempty]
  rw [findSection_append_left]
  exact h1

theorem groupSections_matcher_fallback
    (cfg : ResolvedConfig) (prs : List PullRequest) (p : PullRequest) (ls : List String) (hp : SectionRule)
    (hGBL : cfg.groupByLabels = true) (hVL : cfg.validLabels = some ls) (hmem : p ∈ prs)
    (hnolabel : ls.find? (fun v => p.labels.any (fun x => eqCI v x)) = none)
    (hmatch : (matcherRules cfg).find? (fun r => r.snd p) = some hp) :
    findSection (groupSections cfg prs) p = some hp.fst := by
  have hrules : labelRules cfg = ls.map labelRule := by
    simp [labelRules, hGBL, hVL]
  have hallfalse : ∀ r ∈ labelRules cfg, r.snd p = false := by
    intro r hr
    rw [hrules] at hr
    obtain ⟨v, hv, rfl⟩ := List.mem_map.mp hr
    have := List.find?_eq_none.mp hnolabel v hv
    simp only [labelRule]
    revert this
    cases p.labels.any (fun x => eqCI v x) <;> simp
  have hinlab : p ∈ (extractSections (labelRules cfg) prs).snd :=
    extractSections_mem_snd_of_all_false (labelRules cfg) prs p hallfalse hmem
  have hnotlab : ∀ hs ∈ (extractSections (labelRules cfg) prs).fst, p ∉ hs.snd :=
    extractSections_not_mem_sec_of_all_false (labelRules cfg) prs p hallfalse
  obtain ⟨h1, _⟩ := extractSections_first_match (matcherRules cfg)
    (extractSections (labelRules cfg) prs).snd p hp hinlab hmatch
  unfold groupSections
  rw [findSection_append_left]
  rw [findSection_filter_nonempty]
  rw [findSection_append_right hnotlab]
  exact h1

theorem dropWhile_replicate_nl :
    ∀ (n : Nat) (t : List Char),
      (List.replicate n newlineChar ++ t).dropWhile (fun x => x = newlineChar) =
        t.dropWhile (fun x => x = newlineChar) := by
  intro n
  induction n with
  | zero => intro t; rfl
  | succ k ih =>
    intro t
    rw [List.replicate_succ, List.cons_append, List.dropWhile_cons]
    simp [ih]

theorem dropWhile_eq_self_of_head_ne {l : List Char}
    (h : ∀ c, l.head? = some c → ¬ c = newlineChar) :
    l.dropWhile (fun x => x = newlineChar) = l := by
  cases l with
  | nil => rfl
  | cons c rest =>
    rw [List.dropWhile_cons]
    have := h c rfl
    simp [this]

theorem normalizeTrailing_collapse (l : List Char) (k : Nat)
    (h : l.getLast? ≠ some newlineChar) :
    normalizeTrailing (String.mk (l ++ List.replicate (k + 1) newlineChar)) =
      String.mk (l ++ [newlineChar]) := by
  have hscrut : (l ++ List.replicate (k + 1) newlineChar).reverse =
      newlineChar :: (List.replicate k newlineChar ++ l.reverse) := by
    rw [List.reverse_append, List.reverse_replicate, List.replicate_succ, List.cons_append]
  have hhead : ∀ c, l.reverse.head? = some c → ¬ c = newlineChar := by
    intro c hc
    rw [List.head?_reverse] at hc
    intro hteq
    rw [hteq] at hc
    exact h hc
  have hdrop : (List.replicate k newlineChar ++ l.reverse).dropWhile
      (fun x => x = newlineChar) = l.reverse := by
    rw [dropWhile_replicate_nl]
    exact dropWhile_eq_self_of_head_ne hhead
  rw [normalizeTrailing]
  rw [hscrut]
  simp [List.dropWhile_cons, hdrop]

theorem splitDots_ne_nil : ∀ l : List Char, splitDots l ≠ [] := by
  intro l
  induction l with
  | nil => simp [splitDots]
  | cons c rest ih =>
    simp only [splitDots]
    by_cases h : c = dotChar
    · simp [h]
    · simp only [if_neg h]
      cases hs : splitDots rest with
      | nil => simp
      | cons a t => simp

theorem joinDots_splitDots : ∀ l : List Char, joinDots (splitDots l) = l := by
  intro l
  induction l with
  | nil => rfl
  | cons c rest ih =>
    simp only [splitDots]
    by_cases h : c = dotChar
    · rw [if_pos h]
      cases hs : splitDots rest with
      | nil => exact absurd hs (splitDots_ne_nil rest)
      | cons a t =>
        rw [hs] at ih
        simp only [joinDots, h]
        rw [ih]
        simp
    · rw [if_neg h]
      cases hs : splitDots rest with
      | nil => exact absurd hs (splitDots_ne_nil rest)
      | cons a t =>
        rw [hs] at ih
        cases t with
        | nil =>
          simp only [joinDots] at ih ⊢
          rw [ih]
        | cons b t2 =>
          simp only [joinDots] at ih ⊢
          rw [List.cons_append, ih]

theorem splitDots_no_dot : ∀ l : List Char, (∀ c ∈ l, ¬ c = dotChar) → splitDots l = [l] := by
  intro l
  induction l with
  | nil => intro _; rfl
  | cons c rest ih =>
    intro h
    have hc := h c (List.mem_cons_self c rest)
    have hrest := ih (fun x hx => h x (List.mem_cons_of_mem _ hx))
    simp only [splitDots, if_neg hc, hrest]

theorem splitDots_append_dot :
    ∀ (a r : List Char), (∀ c ∈ a, ¬ c = dotChar) →
      splitDots (a ++ dotChar :: r) = a :: splitDots r := by
  intro a
  induction a with
  | nil =>
    intro r _
    simp [splitDots]
  | cons c rest ih =>
    intro r h
    have hc := h c (List.mem_cons_self c rest)
    have := ih r (fun x hx => h x (List.mem_cons_of_mem _ hx))
    rw [List.cons_append]
    simp only [splitDots, if_neg hc, this]

theorem digits_no_dot {l : List Char} (h : allDigits l = true) : ∀ c ∈ l, ¬ c = dotChar := by
  intro c hc heq
  have := (List.all_eq_true.mp h) c hc
  rw [heq] at this
  simp [dotChar, Char.isDigit] at this

theorem matchesSemver_iff (s : String) : matchesSemver s = true ↔ SemverShape s := by
  constructor
  · intro h
    unfold matchesSemver at h
    cases hs : splitDots s.data with
    | nil => rw [hs] at h; simp at h
    | cons a t =>
      cases t with
      | nil => rw [hs] at h; simp at h
      | cons b t2 =>
        cases t2 with
        | nil => rw [hs] at h; simp at h
        | cons c t3 =>
          cases t3 with
          | nil =>
            rw [hs] at h
            simp only [Bool.and_eq_true, decide_eq_true_eq] at h
            obtain ⟨⟨⟨⟨⟨ha, hda⟩, hb⟩, hdb⟩, hc⟩, hdc⟩ := h
            refine ⟨a, b, c, ha, hb, hc, hda, hdb, hdc, ?_⟩
            have := joinDots_splitDots s.data
            rw [hs] at this
            simp only [joinDots] at this
            rw [← this]
          | cons d t4 => rw [hs] at h; simp at h
  · rintro ⟨a, b, c, ha, hb, hc, hda, hdb, hdc, heq⟩
    have hsplit : splitDots s.data = [a, b, c] := by
      rw [heq, splitDots_append_dot a _ (digits_no_dot hda),
        splitDots_append_dot b _ (digits_no_dot hdb),
        splitDots_no_dot c (digits_no_dot hdc)]
    unfold matchesSemver
    rw [hsplit]
    simp [ha, hb, hc, hda, hdb, hdc]

theorem isPre_self_append : ∀ l t : List Char, isPre l (l ++ t) = true := by
  intro l
  induction l with
  | nil => intro t; rfl
  | cons c rest ih => intro t; simp [isPre, ih]

theorem isPre_append_both : ∀ a b c : List Char, isPre (a ++ b) (a ++ c) = isPre b c := by
  intro a
  induction a with
  | nil => intro b c; rfl
  | cons x rest ih => intro b c; simp [isPre, ih]

theorem joinLines_cons_cons (x y : String) (rest : List String) :
    joinLines (x :: y :: rest) = x ++ "\n" ++ joinLines (y :: rest) := rfl

theorem renderChangelog_starts (cfg : ResolvedConfig) (repo : Repo) (v : String)
    (d : DateTime) (prs : List PullRequest) :
    strStarts ("## " ++ v ++ " (") (renderChangelog cfg repo v d prs) = true := by
  unfold renderChangelog
  simp only []
  rw [List.cons_append, List.cons_append, List.nil_append, joinLines_cons_cons]
  unfold strStarts
  simp only [String.data_append, List.append_assoc]
  rw [isPre_append_both, isPre_append_both]
  exact isPre_self_append _ _

/-- C1: with the eight fixture pull requests, release version 2.0.2, current
date April 1 2023 and the default configuration, the pipeline succeeds and
writes to CHANGELOG.md exactly the changelog expected by the integration
test: it begins with the line "## 2.0.2 (April 1, 2023)", has a "### Features"
section with #8 then #2, then a "### Bug Fixes" section with #1 then #4, and
reproduces the body of #1 with every line two-space-indented and its fenced
code block otherwise byte-identical (all visible in the literal
`c1Expected`). -/
theorem c1_default_run_changelog :
    runPipeline c1Input = Except.ok
      { changelog := c1Expected
      , fileWrites := [("CHANGELOG.md", c1Expected)]
      , stdoutWrites := []
      , warnings := [] } ∧
    strStarts "## 2.0.2 (April 1, 2023)\n" c1Expected = true ∧
    containsSub "### Features" c1Expected = true ∧
    containsSub "### Bug Fixes" c1Expected = true := by
  refine ⟨rfl, by decide, by decide, by decide⟩

/-- C2 counterexample: the claimed equivalence "the resolver retains p iff
p.mergedAt > D" fails: under the default configuration the tag-derived
cutoff is 2023-01-01 12:00, fixture pull request #7 was merged strictly
later (2023-02-01 12:30), yet the resolver drops it (its title "test: added
unit tests" does not pass the title allow-list) — exactly as the
integration-test expectations show (#7 never appears in any changelog). -/
theorem c2_counterexample :
    resolveCutoff defaultConfig "2.0.2" fixtureGit fixtureTagDates = some fixtureCutoff ∧
    pr7.mergedAt = some ⟨2023, 2, 1, 12, 30, 0⟩ ∧
    fixtureCutoff.key < DateTime.key ⟨2023, 2, 1, 12, 30, 0⟩ ∧
    pr7 ∈ fixturePulls ∧
    retainPr defaultConfig (some fixtureCutoff) pr7 = false ∧
    pr7 ∉ resolvePulls defaultConfig (some fixtureCutoff) fixturePulls := by
  refine ⟨rfl, rfl, by decide, by decide, by decide, by decide⟩

/-- C2 (amended): retention implies a merge time strictly after the cutoff;
among pull requests passing the resolver's date-independent filters,
retention holds exactly when the merge time is strictly after the cutoff; a
pull request merged exactly at the cutoff is always dropped; and with the
fixture set and onlySince = 2023-02-05 the pipeline writes exactly the
changelog containing only #8 under Features and #1 under Bug Fixes. -/
theorem c2_amended_boundary :
    (∀ (cfg : ResolvedConfig) (D : DateTime) (p : PullRequest),
      retainPr cfg (some D) p = true → ∃ m, p.mergedAt = some m ∧ D.key < m.key) ∧
    (∀ (cfg : ResolvedConfig) (D : DateTime) (p : PullRequest) (m : DateTime),
      p.mergedAt = some m → otherFiltersPass cfg p = true →
      (retainPr cfg (some D) p = true ↔ D.key < m.key)) ∧
    (∀ (cfg : ResolvedConfig) (D : DateTime) (p : PullRequest),
      p.mergedAt = some D → retainPr cfg (some D) p = false) ∧
    runPipeline c2Input = Except.ok
      { changelog := c2Expected
      , fileWrites := [("CHANGELOG.md", c2Expected)]
      , stdoutWrites := []
      , warnings := [] } := by
  refine ⟨?_, ?_, ?_, rfl⟩
  · intro cfg D p h
    rw [retainPr, Bool.and_eq_true] at h
    obtain ⟨h1, _⟩ := h
    rw [mergedAfterCutoff] at h1
    cases hm : p.mergedAt with
    | none => rw [hm] at h1; exact absurd h1 (by simp)
    | some m =>
      rw [hm] at h1
      exact ⟨m, rfl, by simpa using h1⟩
  · intro cfg D p m hm hof
    rw [retainPr, mergedAfterCutoff, hm, hof]
    simp
  · intro cfg D p hm
    rw [retainPr, mergedAfterCutoff, hm]
    simp

/-- C2 witness: the amended boundary equivalence applied to fixture pull
request #1 and the tag-derived cutoff. -/
theorem c2_amended_boundary_witness :
    (pr1.mergedAt = some ⟨2023, 2, 10, 12, 30, 0⟩ ∧
      otherFiltersPass defaultConfig pr1 = true) ∧
    (retainPr defaultConfig (some fixtureCutoff) pr1 = true ↔
      fixtureCutoff.key < DateTime.key ⟨2023, 2, 10, 12, 30, 0⟩) :=
  ⟨⟨by decide, by decide⟩,
    c2_amended_boundary.2.1 defaultConfig fixtureCutoff pr1 ⟨2023, 2, 10, 12, 30, 0⟩
      (by decide) (by decide)⟩

/-- C3: when both grouping mechanisms are enabled, a pull request that has a
configured valid label lands in the section headed by (the capitalization
of) the first such label and is absent from every matcher-derived section;
a pull request with no configured label whose title matches a matcher rule
lands in that matcher's section; and the fixture scenario (valid label
"bugs", label grouping and matcher grouping both on) writes exactly the
changelog with #1/#4 under "Bugs" and #8/#2 under "Features". -/
theorem c3_label_precedence :
    (∀ (cfg : ResolvedConfig) (prs : List PullRequest) (p : PullRequest)
        (ls : List String) (l : String),
      cfg.groupByLabels = true → cfg.groupByMatchers = true →
      cfg.validLabels = some ls → p ∈ prs →
      ls.find? (fun v => p.labels.any (fun x => eqCI v x)) = some l →
      findSection (groupSections cfg prs) p = some (capitalize l) ∧
        ∀ hs ∈ (extractSections (matcherRules cfg)
            (extractSections (labelRules cfg) prs).snd).fst, p ∉ hs.snd) ∧
    (∀ (cfg : ResolvedConfig) (prs : List PullRequest) (p : PullRequest)
        (ls : List String) (hp : SectionRule),
      cfg.groupByLabels = true → cfg.groupByMatchers = true →
      cfg.validLabels = some ls → p ∈ prs →
      ls.find? (fun v => p.labels.any (fun x => eqCI v x)) = none →
      (matcherRules cfg).find? (fun r => r.snd p) = some hp →
      findSection (groupSections cfg prs) p = some hp.fst) ∧
    runPipeline c3Input = Except.ok
      { changelog := c3Expected
      , fileWrites := [("CHANGELOG.md", c3Expected)]
      , stdoutWrites := []
      , warnings := [] } := by
  refine ⟨?_, ?_, rfl⟩
  · intro cfg prs p ls l hGBL _ hVL hmem hfind
    exact groupSections_label_first cfg prs p ls l hGBL hVL hmem hfind
  · intro cfg prs p ls hp hGBL _ hVL hmem hnone hmatch
    exact groupSections_matcher_fallback cfg prs p ls hp hGBL hVL hmem hnone hmatch

/-- C3 witness: both precedence statements applied to the fixture
configuration (valid label "bugs"): #1 carries the label and is placed under
"Bugs"; #8 carries no valid label, matches the feat: rule, and is placed
under "Features". -/
theorem c3_label_precedence_witness :
    (c3Input.cfg.groupByLabels = true ∧ c3Input.cfg.groupByMatchers = true ∧
      c3Input.cfg.validLabels = some ["bugs"] ∧ pr1 ∈ [pr1, pr8] ∧
      (["bugs"].find? (fun v => pr1.labels.any (fun x => eqCI v x)) = some "bugs") ∧
      (["bugs"].find? (fun v => pr8.labels.any (fun x => eqCI v x)) = none) ∧
      ((matcherRules c3Input.cfg).find? (fun r => r.snd pr8)).map Prod.fst = some "Features") ∧
    findSection (groupSections c3Input.cfg [pr1, pr8]) pr1 = some (capitalize "bugs") ∧
    findSection (groupSections c3Input.cfg [pr1, pr8]) pr8 = some "Features" := by
  refine ⟨⟨rfl, rfl, rfl, by decide, by decide, by decide, by decide⟩, ?_, ?_⟩
  · exact (c3_label_precedence.1 c3Input.cfg [pr1, pr8] pr1 ["bugs"] "bugs"
      rfl rfl rfl (by decide) (by decide)).1
  · exact c3_label_precedence.2.1 c3Input.cfg [pr1, pr8] pr8 ["bugs"]
      ("Features", fun p => strStarts "feat:" p.title)
      rfl rfl rfl (by decide) (by decide) rfl

/-- C4 counterexample: union semantics fail.  In the argument-pattern
scenario the config file carries the pattern `.+` (which matches pull
request #1's body) while the command line carries
`(added a new feature)|(ChatGPT)`; the claim then demands that #1 appear
nowhere in the output, yet the pipeline retains #1 and renders it — the
command-line pattern replaces the config patterns instead of being
unioned with them (integration test "exclude patterns: when specified via
argument"). -/
theorem c4_counterexample :
    patAnyChar ∈ c4Input.cfg.excludePatterns ∧
    (∃ b, pr1.body = some b ∧ patAnyChar b = true) ∧
    pr1 ∈ c4Input.pulls ∧
    runPipeline c4Input = Except.ok
      { changelog := c4Expected
      , fileWrites := [("CHANGELOG.md", c4Expected)]
      , stdoutWrites := []
      , warnings := [] } ∧
    containsSub "([#1]" c4Expected = true := by
  refine ⟨List.mem_singleton.mpr rfl, ⟨_, rfl, by decide⟩, by decide, rfl, by decide⟩

/-- C4 (amended): exclusion by id and exclusion by pattern are independent;
a pull request whose id is listed, or whose title or non-empty body matches
an effective exclusion pattern, is never retained by the resolver (and so
appears in no rendered section); the effective patterns are the single
command-line pattern when one is given — it replaces the config-file list —
and the config-file list otherwise; a pattern never matches an absent or
empty body (though such a pull request can still be excluded via its
title); and the argument-pattern fixture scenario writes exactly the
expected changelog. -/
theorem c4_amended_exclusions :
    (∀ (cfg : ResolvedConfig) (cutoff : Option DateTime) (pulls : List PullRequest)
        (p : PullRequest),
      p.id ∈ cfg.excludePrs → p ∉ resolvePulls cfg cutoff pulls) ∧
    (∀ (cfg : ResolvedConfig) (cutoff : Option DateTime) (pulls : List PullRequest)
        (p : PullRequest) (pat : String → Bool),
      pat ∈ effectivePatterns cfg →
      (pat p.title = true ∨ bodyMatches pat p.body = true) →
      p ∉ resolvePulls cfg cutoff pulls) ∧
    (∀ pat : String → Bool, bodyMatches pat none = false ∧ bodyMatches pat (some "") = false) ∧
    (∀ (cfg : ResolvedConfig) (pat : String → Bool),
      cfg.excludePatternArg = some pat → effectivePatterns cfg = [pat]) ∧
    (∀ cfg : ResolvedConfig,
      cfg.excludePatternArg = none → effectivePatterns cfg = cfg.excludePatterns) ∧
    runPipeline c4Input = Except.ok
      { changelog := c4Expected
      , fileWrites := [("CHANGELOG.md", c4Expected)]
      , stdoutWrites := []
      , warnings := [] } := by
  refine ⟨?_, ?_, ?_, ?_, ?_, rfl⟩
  · intro cfg cutoff pulls p hid hmem
    obtain ⟨-, hr⟩ := mem_resolvePulls.mp hmem
    rw [retainPr, Bool.and_eq_true, otherFiltersPass] at hr
    obtain ⟨-, hr⟩ := hr
    simp only [Bool.and_eq_true, decide_eq_true_eq] at hr
    exact hr.1.1.2 hid
  · intro cfg cutoff pulls p pat hpat hmatch hmem
    obtain ⟨-, hr⟩ := mem_resolvePulls.mp hmem
    rw [retainPr, Bool.and_eq_true, otherFiltersPass] at hr
    obtain ⟨-, hr⟩ := hr
    simp only [Bool.and_eq_true] at hr
    have hexc : patternExcluded cfg p = true := by
      rw [patternExcluded, List.any_eq_true]
      refine ⟨pat, hpat, ?_⟩
      rcases hmatch with h | h <;> simp [h]
    have := hr.1.2
    rw [hexc] at this
    simp at this
  · intro pat
    exact ⟨rfl, rfl⟩
  · intro cfg pat h
    rw [effectivePatterns, h]
  · intro cfg h
    rw [effectivePatterns, h]

/-- C4 witness: both exclusion mechanisms applied to fixture data — #1 is
dropped when its id is listed, and #8 is dropped when the effective pattern
matches it. -/
theorem c4_amended_exclusions_witness :
    (pr1.id ∈ [1, 4] ∧ patAddedOrChatGPT ∈ effectivePatterns c4Input.cfg ∧
      patAddedOrChatGPT pr8.title = true) ∧
    pr1 ∉ resolvePulls { defaultConfig with excludePrs := [1, 4] } none fixturePulls ∧
    pr8 ∉ resolvePulls c4Input.cfg none fixturePulls := by
  refine ⟨⟨by decide, List.mem_singleton.mpr rfl, by decide⟩, ?_, ?_⟩
  · exact c4_amended_exclusions.1 { defaultConfig with excludePrs := [1, 4] } none
      fixturePulls pr1 (by decide)
  · exact c4_amended_exclusions.2.1 c4Input.cfg none fixturePulls pr8 patAddedOrChatGPT
      (List.mem_singleton.mpr rfl) (Or.inl (by decide))

/-- C5 counterexample: with sloppy off and no configured remote the
preflight fails and nothing is written, but the reason string is not the
claimed literal: the code's message (pinned by the integration test) reads
"doesn’t" with a typographic apostrophe and points at
git://github.com/<owner>/<name>.git, while the claim predicts an ASCII
apostrophe and git://<owner>/<name>.git without the host segment. -/
theorem c5_counterexample :
    runPipeline c5Input =
      Except.error (PipelineError.preflightFailed (missingRemoteReason fixtureRepo)) ∧
    missingRemoteReason fixtureRepo ≠ c5ClaimedReason ∧
    pipelineWrites c5Input = [] := by
  refine ⟨rfl, by decide, rfl⟩

/-- C5 (amended): when sloppy is off, the working tree is clean, the branch
is master, there is no divergence, and no configured remote corresponds to
the repository, the preflight check fails with exactly "This local git
repository doesn’t have a remote pointing to
git://github.com/<owner>/<name>.git" (typographic apostrophe, host segment
included), and the pipeline performs no file write. -/
theorem c5_amended_remote_reason :
    (∀ (sloppy : Bool) (g : GitState) (repo : Repo),
      sloppy = false → g.status = "" → g.branch = "master" →
      aheadCount g = 0 → behindCount g = 0 → hasValidRemote g repo = false →
      preflightCheck sloppy g repo = some (missingRemoteReason repo)) ∧
    missingRemoteReason fixtureRepo =
      "This local git repository doesn’t have a remote pointing to git://github.com/repoOwner/repoName.git" ∧
    runPipeline c5Input =
      Except.error (PipelineError.preflightFailed (missingRemoteReason fixtureRepo)) ∧
    pipelineWrites c5Input = [] := by
  refine ⟨?_, rfl, rfl, rfl⟩
  intro sloppy g repo hs hst hbr ha hb hrem
  subst hs
  rw [preflightCheck]
  simp [hst, hbr, ha, hb, hrem]

/-- C5 witness: the amended preflight statement applied to the fixture git
state with its remotes removed. -/
theorem c5_amended_remote_reason_witness :
    (c5Input.git.status = "" ∧ c5Input.git.branch = "master" ∧
      aheadCount c5Input.git = 0 ∧ behindCount c5Input.git = 0 ∧
      hasValidRemote c5Input.git fixtureRepo = false) ∧
    preflightCheck false c5Input.git fixtureRepo = some (missingRemoteReason fixtureRepo) :=
  ⟨⟨rfl, rfl, rfl, rfl, rfl⟩,
    c5_amended_remote_reason.1 false c5Input.git fixtureRepo rfl rfl rfl rfl rfl rfl⟩

/-- C6: with sloppy on, every preflight check is skipped for every git state
(dirty tree, wrong branch, divergence or missing remote alike); in the
fixture scenario on branch feat/some, sloppy off fails the pipeline with
reason "Not on master branch" and no file write happens, while sloppy on
with the identical git state succeeds and writes the changelog. -/
theorem c6_sloppy_behavior :
    (∀ (g : GitState) (repo : Repo), preflightCheck true g repo = none) ∧
    runPipeline c6StrictInput =
      Except.error (PipelineError.preflightFailed "Not on master branch") ∧
    pipelineWrites c6StrictInput = [] ∧
    runPipeline c6SloppyInput = Except.ok
      { changelog := c1Expected
      , fileWrites := [("CHANGELOG.md", c1Expected)]
      , stdoutWrites := []
      , warnings := [] } ∧
    pipelineWrites c6SloppyInput = [("CHANGELOG.md", c1Expected)] := by
  exact ⟨fun g repo => rfl, rfl, rfl, rfl, rfl⟩

/-- C6 witness: the universal skip applied to a git state that is dirty, on
the wrong branch, diverged from its remote, and without any remote. -/
theorem c6_sloppy_behavior_witness :
    preflightCheck true
      { status := "?? x.ts", branch := "feat/some", remotes := []
      , revListLines := ["<a", ">b"], tags := [] } fixtureRepo = none :=
  c6_sloppy_behavior.1
    { status := "?? x.ts", branch := "feat/some", remotes := []
    , revListLines := ["<a", ">b"], tags := [] } fixtureRepo

/-- C7: the final normalization collapses a trailing run of newline
characters to exactly one, leaving everything before it (interior blank
lines included) unchanged; in particular the cli-service unit-test input
ending in two trailing newlines is written with exactly one. -/
theorem c7_trailing_normalization :
    (∀ (l : List Char) (k : Nat), l.getLast? ≠ some newlineChar →
      normalizeTrailing (String.mk (l ++ List.replicate (k + 1) newlineChar)) =
        String.mk (l ++ [newlineChar])) ∧
    normalizeTrailing "generated\nchangelog\nwith\n\na\nlot\n\nof\nempty\nlines\n\n" =
      "generated\nchangelog\nwith\n\na\nlot\n\nof\nempty\nlines\n" := by
  refine ⟨normalizeTrailing_collapse, by decide⟩

/-- C7 witness: the collapse statement applied to a concrete two-newline
tail. -/
theorem c7_trailing_normalization_witness :
    ("lines".data.getLast? ≠ some newlineChar) ∧
    normalizeTrailing (String.mk ("lines".data ++ List.replicate 2 newlineChar)) =
      String.mk ("lines".data ++ [newlineChar]) :=
  ⟨by decide, c7_trailing_normalization.1 "lines".data 1 (by decide)⟩

/-- C8: a version string of shape `\d+\.\d+\.\d+` validates to itself and is
used verbatim as the rendered heading's version; a non-empty string not of
that shape fails with the invalid-version error; an empty or absent version
fails with the missing-version error. -/
theorem c8_version_validation :
    (∀ s : String, SemverShape s → validateVersion (some s) = Except.ok s) ∧
    (∀ s : String, s ≠ "" → ¬ SemverShape s →
      validateVersion (some s) = Except.error PipelineError.invalidVersion) ∧
    validateVersion (some "") = Except.error PipelineError.missingVersion ∧
    validateVersion none = Except.error PipelineError.missingVersion ∧
    (∀ (cfg : ResolvedConfig) (repo : Repo) (v : String) (d : DateTime)
        (prs : List PullRequest),
      strStarts ("## " ++ v ++ " (") (renderChangelog cfg repo v d prs) = true) := by
  refine ⟨?_, ?_, rfl, rfl, renderChangelog_starts⟩
  · intro s hs
    have hne : s ≠ "" := by
      obtain ⟨a, b, c, ha, -, -, -, -, -, heq⟩ := hs
      intro h
      rw [h] at heq
      cases a with
      | nil => exact ha rfl
      | cons x xs => exact absurd heq.symm (by simp)
    have hm := (matchesSemver_iff s).mpr hs
    rw [validateVersion]
    simp [hne, hm]
  · intro s hne hns
    have hm : matchesSemver s = false := by
      cases h : matchesSemver s with
      | true => exact absurd ((matchesSemver_iff s).mp h) hns
      | false => rfl
    rw [validateVersion]
    simp [hne, hm]

/-- C8 witness: validation applied to the release version 2.0.2 (with its
explicit digit decomposition) and to the invalid input a.b.c. -/
theorem c8_version_validation_witness :
    SemverShape "2.0.2" ∧
    validateVersion (some "2.0.2") = Except.ok "2.0.2" ∧
    ("a.b.c" ≠ "" ∧ ¬ SemverShape "a.b.c") ∧
    validateVersion (some "a.b.c") = Except.error PipelineError.invalidVersion := by
  have hshape : SemverShape "2.0.2" :=
    ⟨["2".data.head!], ["0".data.head!], ["2".data.head!],
      by decide, by decide, by decide, by decide, by decide, by decide, by decide⟩
  have hno : ¬ SemverShape "a.b.c" := fun hs =>
    absurd ((matchesSemver_iff "a.b.c").mpr hs) (by decide)
  exact ⟨hshape, c8_version_validation.1 "2.0.2" hshape,
    ⟨by decide, hno⟩, c8_version_validation.2.1 "a.b.c" (by decide) hno⟩

/-- C9: the top-level runner returns a successful action's result unchanged
with no error reporting; on a thrown value it logs the message first
(appending the stack precisely when the trace flag is set), exits with the
non-zero status 1 when spawned from the command line, and re-raises the very
same thrown value when invoked programmatically. -/
theorem c9_main_runner :
    (∀ (R : Type) (trace cli : Bool) (r : R),
      mainRunnerRun (Except.ok r) trace cli = (RunOutcome.ok r, [])) ∧
    (∀ (R : Type) (trace cli : Bool) (t : ThrownValue),
      (mainRunnerRun (Except.error t : Except ThrownValue R) trace cli).snd =
          thrownLogs t trace ∧
      (∀ m st, t = ThrownValue.jsError m st →
        (thrownLogs t trace).head? = some m ∧
        (trace = true → thrownLogs t trace = [m, st.getD ""]) ∧
        (trace = false → thrownLogs t trace = [m])) ∧
      (cli = true →
        (mainRunnerRun (Except.error t : Except ThrownValue R) trace cli).fst =
          RunOutcome.exited 1) ∧
      (cli = false →
        (mainRunnerRun (Except.error t : Except ThrownValue R) trace cli).fst =
          RunOutcome.raised t)) ∧
    (∀ (R : Type) (trace cli : Bool) (a : Except ThrownValue R) (c : Nat),
      (mainRunnerRun a trace cli).fst = RunOutcome.exited c → c ≠ 0) := by
  refine ⟨fun R trace cli r => rfl, ?_, ?_⟩
  · intro R trace cli t
    refine ⟨rfl, ?_, ?_, ?_⟩
    · rintro m st rfl
      cases trace <;> simp [thrownLogs]
    · rintro rfl
      rfl
    · rintro rfl
      rfl
  · intro R trace cli a c h
    cases a with
    | ok r => exact absurd h (by simp [mainRunnerRun])
    | error t =>
      cases cli with
      | true =>
        simp only [mainRunnerRun] at h
        cases h
        decide
      | false => exact absurd h (by simp [mainRunnerRun])

/-- C9 witness: the runner applied to a concrete failing action, traced,
in programmatic mode. -/
theorem c9_main_runner_witness :
    ((Except.error (ThrownValue.jsError "boom" (some "trace")) : Except ThrownValue Nat) =
        Except.error (ThrownValue.jsError "boom" (some "trace")) ∧
      (true : Bool) = true ∧ (false : Bool) = false) ∧
    (thrownLogs (ThrownValue.jsError "boom" (some "trace")) true).head? = some "boom" ∧
    thrownLogs (ThrownValue.jsError "boom" (some "trace")) true = ["boom", "trace"] ∧
    (mainRunnerRun (Except.error (ThrownValue.jsError "boom" (some "trace")) :
        Except ThrownValue Nat) true false).fst =
      RunOutcome.raised (ThrownValue.jsError "boom" (some "trace")) := by
  have h := (c9_main_runner.2.1 Nat true false (ThrownValue.jsError "boom" (some "trace")))
  exact ⟨⟨rfl, rfl, rfl⟩, (h.2.1 "boom" (some "trace") rfl).1,
    (h.2.1 "boom" (some "trace") rfl).2.1 rfl, h.2.2.2 rfl⟩

/-- C10: with noOutput resolved to true, the logger's write, warn and error
operations emit nothing on either stream, and a successful pipeline run
prints nothing to standard output and writes no file — even when
outputToStdout is also enabled. -/
theorem c10_no_output :
    (∀ (cfg : LoggerConfig) (msg : String), cfg.noOutput.getD false = true →
      loggerWrite cfg msg = [] ∧ loggerWarn cfg msg = [] ∧ loggerError cfg msg = []) ∧
    (∀ (i : PipelineInput) (out : PipelineOutput), i.cfg.noOutput = true →
      runPipeline i = Except.ok out → out.stdoutWrites = [] ∧ out.fileWrites = []) := by
  constructor
  · intro cfg msg h
    refine ⟨?_, ?_, ?_⟩ <;>
      simp [loggerWrite, loggerWarn, loggerError, writeToStdout, writeToStderr, h]
  · intro i out hno hrun
    rw [runPipeline] at hrun
    cases hv : validateVersion i.version with
    | error e => rw [hv] at hrun; exact absurd hrun (by simp)
    | ok v =>
      rw [hv] at hrun
      cases hp : preflightCheck i.cfg.sloppy i.git i.repo with
      | some r => rw [hp] at hrun; exact absurd hrun (by simp)
      | none =>
        rw [hp] at hrun
        simp only [hno, if_true] at hrun
        injection hrun with h
        rw [← h]
        exact ⟨rfl, rfl⟩

/-- C10 witness: the logger statement applied to a concrete configuration
and message, and the pipeline statement applied to the default fixture run
with noOutput enabled. -/
theorem c10_no_output_witness :
    ((⟨some true⟩ : LoggerConfig).noOutput.getD false = true ∧
      ({ c1Input with cfg := { defaultConfig with noOutput := true, outputToStdout := true } }
          : PipelineInput).cfg.noOutput = true ∧
      runPipeline { c1Input with cfg := { defaultConfig with noOutput := true, outputToStdout := true } } =
        Except.ok { changelog := c1Expected, fileWrites := [], stdoutWrites := [], warnings := [] }) ∧
    loggerWrite ⟨some true⟩ "hello" = [] ∧
    (({ changelog := c1Expected, fileWrites := [], stdoutWrites := [], warnings := [] }
        : PipelineOutput).stdoutWrites = [] ∧
      ({ changelog := c1Expected, fileWrites := [], stdoutWrites := [], warnings := [] }
        : PipelineOutput).fileWrites = []) := by
  refine ⟨⟨rfl, rfl, rfl⟩, (c10_no_output.1 ⟨some true⟩ "hello" rfl).1, ?_⟩
  exact c10_no_output.2
    { c1Input with cfg := { defaultConfig with noOutput := true, outputToStdout := true } }
    { changelog := c1Expected, fileWrites := [], stdoutWrites := [], warnings := [] } rfl rfl
